import Mathlib

/-!
Verification of the mir.dlsite repository: a shallow embedding of
`mir/dlsite/api.py` (metadata fetching and the persistent fetch cache) and
`mir/dlsite/cmd/dlorg.py` (the organizing command), with theorems settling
the specification claims about them.

Python exceptions are modelled by an explicit error type and `Except`;
the shelve-backed store is a three-state machine (never opened, opened
with contents, closed), matching `CachedFetcher._shelf` being `None`,
an open shelf, or a closed shelf.
-/

/-- Python exceptions relevant to the embedded code. -/
inductive PyError where
  | keyError : String → PyError
  | typeError : PyError
  | valueError : String → PyError
  | attributeError : PyError
  | httpError : Nat → PyError
  | urlError : PyError
  deriving DecidableEq

/-- workinfo.Work: rjcode, name and maker are required, series optional
(set after construction in `fetch_work` when present). -/
structure Work where
  rjcode : String
  name : String
  maker : String
  series : Option String
  deriving DecidableEq

/-- The state of `CachedFetcher._shelf`: `None` before `__enter__`,
an open shelve mapping after it, and a closed shelf after `close`. -/
inductive ShelfState where
  | unopened : ShelfState
  | opened : (String → Option Work) → ShelfState
  | closed : ShelfState

/-- `self._shelf[rjcode]`: subscripting `None` raises TypeError, a closed
shelf raises shelve's ValueError, an open shelf raises KeyError on a
missing key and returns the stored value otherwise. -/
def shelfGetitem (shelf : ShelfState) (rjcode : String) : Except PyError Work :=
  match shelf with
  | ShelfState.unopened => Except.error PyError.typeError
  | ShelfState.opened store =>
      match store rjcode with
      | some w => Except.ok w
      | none => Except.error (PyError.keyError rjcode)
  | ShelfState.closed => Except.error (PyError.valueError "invalid operation on closed shelf")

/-- `self._shelf[rjcode] = work_info`, with the same state dispatch. -/
def shelfSetitem (shelf : ShelfState) (rjcode : String) (w : Work) : Except PyError ShelfState :=
  match shelf with
  | ShelfState.unopened => Except.error PyError.typeError
  | ShelfState.opened store =>
      Except.ok (ShelfState.opened (fun k => if k = rjcode then some w else store k))
  | ShelfState.closed => Except.error (PyError.valueError "invalid operation on closed shelf")

/-- `CachedFetcher.__call__` (api.py lines 105-113).  Returns the call
result, the shelf state afterwards, and how many times the wrapped
fetcher was invoked during this call.  The `try` block returns the shelf
value on a hit; `except KeyError` fetches, stores and returns;
`except TypeError` raises the dedicated usage ValueError; every other
exception from the lookup propagates unchanged. -/
def cachedCall (fetcher : String → Except PyError Work) (shelf : ShelfState)
    (rjcode : String) : Except PyError Work × ShelfState × Nat :=
  match shelfGetitem shelf rjcode with
  | Except.ok w => (Except.ok w, shelf, 0)
  | Except.error (PyError.keyError _) =>
      match fetcher rjcode with
      | Except.ok w =>
          match shelfSetitem shelf rjcode w with
          | Except.ok shelf2 => (Except.ok w, shelf2, 1)
          | Except.error e => (Except.error e, shelf, 1)
      | Except.error e => (Except.error e, shelf, 1)
  | Except.error PyError.typeError =>
      (Except.error (PyError.valueError "called unopened CachedFetcher"), shelf, 0)
  | Except.error e => (Except.error e, shelf, 0)

/-- `CachedFetcher.close` (api.py lines 122-123): `self._shelf.close()`.
On the never-opened state `self._shelf` is `None` and attribute access on
`None` raises AttributeError; closing an open shelf yields a closed
shelf; shelve tolerates closing a closed shelf. -/
def cachedClose (shelf : ShelfState) : Except PyError ShelfState :=
  match shelf with
  | ShelfState.unopened => Except.error PyError.attributeError
  | ShelfState.opened _ => Except.ok ShelfState.closed
  | ShelfState.closed => Except.ok ShelfState.closed

/-- Run a sequence of `CachedFetcher` calls, threading the shelf state and
counting the wrapped-fetcher invocations made by calls whose identifier
equals `r`. -/
def runCallsCount (fetcher : String → Except PyError Work) (r : String) :
    ShelfState → List String → ShelfState × Nat
  | shelf, [] => (shelf, 0)
  | shelf, id :: rest =>
      let step := cachedCall fetcher shelf id
      let restRun := runCallsCount fetcher r step.2.1 rest
      (restRun.1, (if id = r then step.2.2 else 0) + restRun.2)

/-! URLs and page fetching (api.py lines 44-67). -/

def ROOT : String := "http://www.dlsite.com/maniax/"

def get_work_url (rjcode : String) : String :=
  ROOT ++ "work/=/product_id/" ++ rjcode ++ ".html"

def get_announce_url (rjcode : String) : String :=
  ROOT ++ "announce/=/product_id/" ++ rjcode ++ ".html"

/-- `_get_page` (api.py lines 44-52), with the transport `net` as an
explicit collaborator.  Returns the page result together with the list of
URLs actually requested.  `urlopen` on the work URL is tried first; an
HTTPError with code 404 falls back to the announce URL; an HTTPError with
any other code is re-raised; any non-HTTPError transport failure
propagates uncaught. -/
def get_page (net : String → Except PyError String) (rjcode : String) :
    Except PyError String × List String :=
  match net (get_work_url rjcode) with
  | Except.ok page => (Except.ok page, [get_work_url rjcode])
  | Except.error (PyError.httpError code) =>
      if code = 404 then
        (net (get_announce_url rjcode), [get_work_url rjcode, get_announce_url rjcode])
      else
        (Except.error (PyError.httpError code), [get_work_url rjcode])
  | Except.error e => (Except.error e, [get_work_url rjcode])

/-- An example work, used to instantiate universally quantified theorems. -/
def exampleWork : Work := Work.mk "RJ123456" "Example Work" "Example Circle" none

/-! Claims C1, C3 and C10: the cache-miss protocol and lifecycle errors. -/

/-- C1: for every identifier not in the store (cache miss),
`CachedFetcher.__call__` invokes the wrapped fetcher exactly once; on
success the result is written to the store under that identifier and
returned; on failure the error propagates, the store is unchanged, and a
later call for the same identifier invokes the fetcher again. -/
theorem cache_miss_protocol (fetcher : String → Except PyError Work)
    (store : String → Option Work) (r : String) (hmiss : store r = none) :
    (cachedCall fetcher (ShelfState.opened store) r).2.2 = 1 ∧
    (∀ w, fetcher r = Except.ok w →
      (cachedCall fetcher (ShelfState.opened store) r).1 = Except.ok w ∧
      shelfGetitem (cachedCall fetcher (ShelfState.opened store) r).2.1 r = Except.ok w) ∧
    (∀ e, fetcher r = Except.error e →
      (cachedCall fetcher (ShelfState.opened store) r).1 = Except.error e ∧
      (cachedCall fetcher (ShelfState.opened store) r).2.1 = ShelfState.opened store ∧
      (cachedCall fetcher
        (cachedCall fetcher (ShelfState.opened store) r).2.1 r).2.2 = 1) := by
  cases hfetch : fetcher r with
  | ok w =>
      refine ⟨?_, ?_, ?_⟩
      · simp [cachedCall, shelfGetitem, shelfSetitem, hmiss, hfetch]
      · intro w2 hw2
        injection hw2 with h
        subst h
        constructor <;> simp [cachedCall, shelfGetitem, shelfSetitem, hmiss, hfetch]
      · intro e he
        exact Except.noConfusion he
  | error e =>
      refine ⟨?_, ?_, ?_⟩
      · simp [cachedCall, shelfGetitem, shelfSetitem, hmiss, hfetch]
      · intro w2 hw2
        exact Except.noConfusion hw2
      · intro e2 he2
        injection he2 with h
        subst h
        refine ⟨?_, ?_, ?_⟩ <;> simp [cachedCall, shelfGetitem, shelfSetitem, hmiss, hfetch]

/-- Witness for C1 at a concrete empty store, identifier and fetcher. -/
theorem cache_miss_protocol_witness :
    (cachedCall (fun _ => Except.ok exampleWork)
        (ShelfState.opened (fun _ => none)) "RJ123456").2.2 = 1 ∧
    (∀ w, (fun _ => Except.ok exampleWork : String → Except PyError Work) "RJ123456" = Except.ok w →
      (cachedCall (fun _ => Except.ok exampleWork)
          (ShelfState.opened (fun _ => none)) "RJ123456").1 = Except.ok w ∧
      shelfGetitem (cachedCall (fun _ => Except.ok exampleWork)
          (ShelfState.opened (fun _ => none)) "RJ123456").2.1 "RJ123456" = Except.ok w) ∧
    (∀ e, (fun _ => Except.ok exampleWork : String → Except PyError Work) "RJ123456" = Except.error e →
      (cachedCall (fun _ => Except.ok exampleWork)
          (ShelfState.opened (fun _ => none)) "RJ123456").1 = Except.error e ∧
      (cachedCall (fun _ => Except.ok exampleWork)
          (ShelfState.opened (fun _ => none)) "RJ123456").2.1 =
        ShelfState.opened (fun _ => none) ∧
      (cachedCall (fun _ => Except.ok exampleWork)
        (cachedCall (fun _ => Except.ok exampleWork)
          (ShelfState.opened (fun _ => none)) "RJ123456").2.1 "RJ123456").2.2 = 1) :=
  cache_miss_protocol (fun _ => Except.ok exampleWork) (fun _ => none) "RJ123456" rfl

/-- C3 counterexample: after `close()`, a `CachedFetcher.__call__` does
not fail with the dedicated unopened-cache ValueError; the closed shelf
raises its own ValueError, which propagates unchanged.  The call makes no
fetch and returns no value, but the error is a different one. -/
theorem closed_call_error_differs :
    (cachedCall (fun _ => Except.ok exampleWork) ShelfState.closed "RJ123456").1 =
      Except.error (PyError.valueError "invalid operation on closed shelf") ∧
    PyError.valueError "invalid operation on closed shelf" ≠
      PyError.valueError "called unopened CachedFetcher" := by
  constructor
  · rfl
  · decide

/-- C3 amended: calling before open fails with the dedicated
ValueError raised at api.py line 113, while calling after close fails
with the closed-shelf ValueError propagated from the store; in both
states no fetch is performed, no value is returned, and the shelf state
is unchanged. -/
theorem lifecycle_call_errors (fetcher : String → Except PyError Work) (r : String) :
    cachedCall fetcher ShelfState.unopened r =
      (Except.error (PyError.valueError "called unopened CachedFetcher"),
        ShelfState.unopened, 0) ∧
    cachedCall fetcher ShelfState.closed r =
      (Except.error (PyError.valueError "invalid operation on closed shelf"),
        ShelfState.closed, 0) := by
  constructor <;> rfl

/-- C10: calling `close()` on a never-opened `CachedFetcher` crashes with
AttributeError (the shelf handle is still `None`): it neither raises the
dedicated unopened-cache ValueError nor succeeds as a no-op, while
`__call__` on the same state does produce the dedicated usage error. -/
theorem close_unopened_crashes :
    cachedClose ShelfState.unopened = Except.error PyError.attributeError ∧
    PyError.attributeError ≠ PyError.valueError "called unopened CachedFetcher" ∧
    (∀ s, cachedClose ShelfState.unopened ≠ Except.ok s) ∧
    (cachedCall (fun _ => Except.ok exampleWork) ShelfState.unopened "RJ123456").1 =
      Except.error (PyError.valueError "called unopened CachedFetcher") := by
  refine ⟨rfl, by decide, ?_, rfl⟩
  intro s h
  exact Except.noConfusion h

/-! Claim C2: memoization across sequences of calls. -/

/-- Helper: a single `__call__` invokes the wrapped fetcher at most once. -/
theorem call_count_le_one (fetcher : String → Except PyError Work)
    (shelf : ShelfState) (r : String) :
    (cachedCall fetcher shelf r).2.2 ≤ 1 := by
  cases h : shelfGetitem shelf r with
  | ok w => simp [cachedCall, h]
  | error e =>
      cases e with
      | keyError k =>
          cases hf : fetcher r with
          | ok w =>
              cases hs : shelfSetitem shelf r w with
              | ok s2 => simp [cachedCall, h, hf, hs]
              | error e2 => simp [cachedCall, h, hf, hs]
          | error e2 => simp [cachedCall, h, hf]
      | typeError => simp [cachedCall, h]
      | valueError s => simp [cachedCall, h]
      | attributeError => simp [cachedCall, h]
      | httpError n => simp [cachedCall, h]
      | urlError => simp [cachedCall, h]

/-- Helper: a call that returns a value leaves that value stored under
its identifier. -/
theorem call_ok_stores (fetcher : String → Except PyError Work) (shelf : ShelfState)
    (r : String) (w : Work) (h : (cachedCall fetcher shelf r).1 = Except.ok w) :
    shelfGetitem (cachedCall fetcher shelf r).2.1 r = Except.ok w := by
  cases shelf with
  | unopened => simp [cachedCall, shelfGetitem] at h
  | closed => simp [cachedCall, shelfGetitem] at h
  | opened store =>
      cases hsr : store r with
      | some w0 =>
          have heq : cachedCall fetcher (ShelfState.opened store) r =
              (Except.ok w0, ShelfState.opened store, 0) := by
            simp [cachedCall, shelfGetitem, hsr]
          rw [heq] at h ⊢
          injection h with h2
          subst h2
          simp [shelfGetitem, hsr]
      | none =>
          cases hf : fetcher r with
          | ok w0 =>
              have heq : cachedCall fetcher (ShelfState.opened store) r =
                  (Except.ok w0,
                    ShelfState.opened (fun k => if k = r then some w0 else store k), 1) := by
                simp [cachedCall, shelfGetitem, shelfSetitem, hsr, hf]
              rw [heq] at h ⊢
              injection h with h2
              subst h2
              simp [shelfGetitem]
          | error e =>
              have heq : cachedCall fetcher (ShelfState.opened store) r =
                  (Except.error e, ShelfState.opened store, 1) := by
                simp [cachedCall, shelfGetitem, shelfSetitem, hsr, hf]
              rw [heq] at h
              exact Except.noConfusion h

/-- Helper: a cache hit returns the stored value, leaves the shelf
unchanged and performs no fetch. -/
theorem hit_returns (fetcher : String → Except PyError Work) (shelf : ShelfState)
    (r : String) (w : Work) (h : shelfGetitem shelf r = Except.ok w) :
    cachedCall fetcher shelf r = (Except.ok w, shelf, 0) := by
  unfold cachedCall
  rw [h]

/-- Helper: no call for any identifier removes a stored value. -/
theorem call_preserves_stored (fetcher : String → Except PyError Work) (shelf : ShelfState)
    (r : String) (w : Work) (id : String) (h : shelfGetitem shelf r = Except.ok w) :
    shelfGetitem (cachedCall fetcher shelf id).2.1 r = Except.ok w := by
  cases shelf with
  | unopened => simp [shelfGetitem] at h
  | closed => simp [shelfGetitem] at h
  | opened store =>
      cases hsr : store r with
      | none => simp [shelfGetitem, hsr] at h
      | some ww =>
          have hw : ww = w := by
            simp [shelfGetitem, hsr] at h
            exact h
          subst hw
          cases hid : store id with
          | some w0 =>
              have heq : cachedCall fetcher (ShelfState.opened store) id =
                  (Except.ok w0, ShelfState.opened store, 0) := by
                simp [cachedCall, shelfGetitem, hid]
              rw [heq]
              simp [shelfGetitem, hsr]
          | none =>
              have hne : r ≠ id := by
                intro hri
                rw [hri, hid] at hsr
                exact Option.noConfusion hsr
              cases hf : fetcher id with
              | ok w0 =>
                  have heq : cachedCall fetcher (ShelfState.opened store) id =
                      (Except.ok w0,
                        ShelfState.opened (fun k => if k = id then some w0 else store k), 1) := by
                    simp [cachedCall, shelfGetitem, shelfSetitem, hid, hf]
                  rw [heq]
                  simp [shelfGetitem, hne, hsr]
              | error e =>
                  have heq : cachedCall fetcher (ShelfState.opened store) id =
                      (Except.error e, ShelfState.opened store, 1) := by
                    simp [cachedCall, shelfGetitem, shelfSetitem, hid, hf]
                  rw [heq]
                  simp [shelfGetitem, hsr]

/-- Helper: once a value is stored for `r`, any sequence of further calls
keeps it stored and performs zero fetches for `r`. -/
theorem runCalls_keeps_stored (fetcher : String → Except PyError Work)
    (r : String) (w : Work) :
    ∀ (ids : List String) (shelf : ShelfState), shelfGetitem shelf r = Except.ok w →
      shelfGetitem (runCallsCount fetcher r shelf ids).1 r = Except.ok w ∧
      (runCallsCount fetcher r shelf ids).2 = 0 := by
  intro ids
  induction ids with
  | nil => exact fun shelf h => ⟨h, rfl⟩
  | cons id rest ih =>
      intro shelf h
      have hpres := call_preserves_stored fetcher shelf r w id h
      have hrest := ih (cachedCall fetcher shelf id).2.1 hpres
      have hcount : (if id = r then (cachedCall fetcher shelf id).2.2 else 0) = 0 := by
        by_cases hir : id = r
        · subst hir
          rw [if_pos rfl, hit_returns fetcher shelf id w h]
        · rw [if_neg hir]
      constructor
      · simpa [runCallsCount] using hrest.1
      · simp only [runCallsCount]
        rw [hcount, hrest.2]

/-- C2: if the first call for an identifier succeeds, then after any
further sequence of calls on the same fetcher, a call for that identifier
still returns the stored value with zero fetches, the subsequent calls
perform zero fetches for that identifier, and across the whole sequence
the wrapped fetcher ran at most once for it. -/
theorem cached_fetcher_memoizes (fetcher : String → Except PyError Work)
    (shelf : ShelfState) (r : String) (w : Work)
    (h : (cachedCall fetcher shelf r).1 = Except.ok w) (ids : List String) :
    (runCallsCount fetcher r (cachedCall fetcher shelf r).2.1 ids).2 = 0 ∧
    cachedCall fetcher (runCallsCount fetcher r (cachedCall fetcher shelf r).2.1 ids).1 r =
      (Except.ok w, (runCallsCount fetcher r (cachedCall fetcher shelf r).2.1 ids).1, 0) ∧
    (cachedCall fetcher shelf r).2.2 +
      (runCallsCount fetcher r (cachedCall fetcher shelf r).2.1 ids).2 ≤ 1 := by
  have hstored := call_ok_stores fetcher shelf r w h
  have hrun := runCalls_keeps_stored fetcher r w ids (cachedCall fetcher shelf r).2.1 hstored
  refine ⟨hrun.2, hit_returns fetcher _ r w hrun.1, ?_⟩
  rw [hrun.2]
  have hle := call_count_le_one fetcher shelf r
  omega

/-- A fetcher collaborator that always succeeds with the example work. -/
def fetchOkExample : String → Except PyError Work := fun _ => Except.ok exampleWork

/-- An empty cache store. -/
def emptyStore : String → Option Work := fun _ => none

/-- Witness for C2: a concrete first call on an empty open store,
followed by a repeat call and a call for a different identifier. -/
theorem cached_fetcher_memoizes_witness :
    (runCallsCount fetchOkExample "RJ123456"
        (cachedCall fetchOkExample (ShelfState.opened emptyStore) "RJ123456").2.1
        ["RJ123456", "RJ654321"]).2 = 0 ∧
    cachedCall fetchOkExample
        (runCallsCount fetchOkExample "RJ123456"
          (cachedCall fetchOkExample (ShelfState.opened emptyStore) "RJ123456").2.1
          ["RJ123456", "RJ654321"]).1 "RJ123456" =
      (Except.ok exampleWork,
        (runCallsCount fetchOkExample "RJ123456"
          (cachedCall fetchOkExample (ShelfState.opened emptyStore) "RJ123456").2.1
          ["RJ123456", "RJ654321"]).1, 0) ∧
    (cachedCall fetchOkExample (ShelfState.opened emptyStore) "RJ123456").2.2 +
      (runCallsCount fetchOkExample "RJ123456"
        (cachedCall fetchOkExample (ShelfState.opened emptyStore) "RJ123456").2.1
        ["RJ123456", "RJ654321"]).2 ≤ 1 :=
  cached_fetcher_memoizes fetchOkExample (ShelfState.opened emptyStore) "RJ123456"
    exampleWork rfl ["RJ123456", "RJ654321"]

/-! Claim C4: primary URL first, announce URL only on HTTP 404. -/

/-- C4: `_get_page` requests the primary work URL first; exactly when
that request fails with HTTP 404 it requests the announce URL and uses
its result; an HTTP error with another code, or any non-HTTP transport
error, propagates unchanged and the announce URL is never requested. -/
theorem get_page_fallback (net : String → Except PyError String) (r : String) :
    (∀ p, net (get_work_url r) = Except.ok p →
      get_page net r = (Except.ok p, [get_work_url r])) ∧
    (net (get_work_url r) = Except.error (PyError.httpError 404) →
      get_page net r = (net (get_announce_url r),
        [get_work_url r, get_announce_url r])) ∧
    (∀ e, net (get_work_url r) = Except.error e → e ≠ PyError.httpError 404 →
      get_page net r = (Except.error e, [get_work_url r])) := by
  refine ⟨?_, ?_, ?_⟩
  · intro p hp
    simp [get_page, hp]
  · intro h
    simp [get_page, h]
  · intro e he hne
    cases e with
    | httpError code =>
        have hcode : code ≠ 404 := by
          intro hc
          exact hne (by rw [hc])
        simp [get_page, he, hcode]
    | keyError k => simp [get_page, he]
    | typeError => simp [get_page, he]
    | valueError s => simp [get_page, he]
    | attributeError => simp [get_page, he]
    | urlError => simp [get_page, he]

/-- Witness for C4: the spec scenario for identifier RJ999999, where the
primary URL yields 404 and the announce URL succeeds. -/
theorem get_page_fallback_witness :
    get_page
        (fun u => if u = get_work_url "RJ999999"
          then Except.error (PyError.httpError 404)
          else Except.ok "announce page")
        "RJ999999" =
      (Except.ok "announce page", [get_work_url "RJ999999", get_announce_url "RJ999999"]) := by
  have h := (get_page_fallback
      (fun u => if u = get_work_url "RJ999999"
        then Except.error (PyError.httpError 404)
        else Except.ok "announce page")
      "RJ999999").2.1 (by simp)
  rw [h]
  simp [get_work_url, get_announce_url, ROOT]

/-! Claim C7: fetch_work required and optional fields. -/

/-- The parsed page as seen by the extraction helpers: whether the
work-name node, the maker-name node and the series row are present, with
their text.  `soup.find` returning `None` for a missing node is what
makes attribute access raise AttributeError in the source helpers. -/
structure Soup where
  work_name : Option String
  maker_name : Option String
  series : Option String
  deriving DecidableEq

/-- `_get_name` (api.py lines 70-72): attribute access on the result of
`soup.find(id=\x22work_name\x22)` raises AttributeError when the node is
absent. -/
def get_name (soup : Soup) : Except PyError String :=
  match soup.work_name with
  | some n => Except.ok n
  | none => Except.error PyError.attributeError

/-- `_get_maker` (api.py lines 75-80): same shape as `_get_name`. -/
def get_maker (soup : Soup) : Except PyError String :=
  match soup.maker_name with
  | some m => Except.ok m
  | none => Except.error PyError.attributeError

/-- `_get_series` (api.py lines 86-95): a missing series row raises
AttributeError, which the function converts to `ValueError(\x22no series\x22)`. -/
def get_series (soup : Soup) : Except PyError String :=
  match soup.series with
  | some s => Except.ok s
  | none => Except.error (PyError.valueError "no series")

/-- `fetch_work` (api.py lines 27-41), with the transport and the HTML
parser as collaborators: fetches the page, builds the Work from the
required name and maker (their errors propagate), then tries the series
and ignores only its ValueError. -/
def fetch_work (net : String → Except PyError String) (parse : String → Soup)
    (rjcode : String) : Except PyError Work :=
  match (get_page net rjcode).1 with
  | Except.error e => Except.error e
  | Except.ok page =>
      match get_name (parse page) with
      | Except.error e => Except.error e
      | Except.ok name =>
          match get_maker (parse page) with
          | Except.error e => Except.error e
          | Except.ok maker =>
              match get_series (parse page) with
              | Except.ok s => Except.ok (Work.mk rjcode name maker (some s))
              | Except.error _ => Except.ok (Work.mk rjcode name maker none)

/-- C7: when the page fetch succeeds, `fetch_work` returns the record
with the parsed name and maker and with the series field equal to the
series present on the page (absence of a series is not an error), while
a missing name or maker makes the whole call fail for that identifier. -/
theorem fetch_work_fields (net : String → Except PyError String)
    (parse : String → Soup) (r : String) (page : String)
    (hpage : (get_page net r).1 = Except.ok page) :
    (∀ n m, (parse page).work_name = some n → (parse page).maker_name = some m →
      fetch_work net parse r = Except.ok (Work.mk r n m (parse page).series)) ∧
    ((parse page).work_name = none →
      fetch_work net parse r = Except.error PyError.attributeError) ∧
    (∀ n, (parse page).work_name = some n → (parse page).maker_name = none →
      fetch_work net parse r = Except.error PyError.attributeError) := by
  refine ⟨?_, ?_, ?_⟩
  · intro n m hn hm
    cases hs : (parse page).series with
    | some s => simp [fetch_work, hpage, get_name, get_maker, get_series, hn, hm, hs]
    | none => simp [fetch_work, hpage, get_name, get_maker, get_series, hn, hm, hs]
  · intro hn
    simp [fetch_work, hpage, get_name, hn]
  · intro n hn hm
    simp [fetch_work, hpage, get_name, get_maker, hn, hm]

/-- Witness for C7: a page whose parse has a name and maker but no
series; the spec scenario record for RJ123456 is returned with
`series = none`. -/
theorem fetch_work_fields_witness :
    fetch_work (fun _ => Except.ok "page")
        (fun _ => Soup.mk (some "Example Work") (some "Example Circle") none)
        "RJ123456" =
      Except.ok (Work.mk "RJ123456" "Example Work" "Example Circle"
        (Soup.mk (some "Example Work") (some "Example Circle") none).series) :=
  (fetch_work_fields (fun _ => Except.ok "page")
      (fun _ => Soup.mk (some "Example Work") (some "Example Circle") none)
      "RJ123456" "page" rfl).1 "Example Work" "Example Circle" rfl rfl

/-! Filesystem model for the dlorg command (paths are component lists
relative to the top directory). -/

/-- `leadsTo d p` holds when directory path `d` is an ancestor-or-self of
path `p` (component-wise path containment). -/
def leadsTo : List String → List String → Bool
  | [], _ => true
  | _ :: _, [] => false
  | a :: as, b :: bs => a == b && leadsTo as bs

theorem leadsTo_refl (l : List String) : leadsTo l l = true := by
  induction l with
  | nil => rfl
  | cons a as ih => simp [leadsTo, ih]

theorem leadsTo_trans :
    ∀ (a b c : List String), leadsTo a b = true → leadsTo b c = true →
      leadsTo a c = true := by
  intro a
  induction a with
  | nil => intro b c _ _; rfl
  | cons x xs ih =>
      intro b c hab hbc
      cases b with
      | nil => exact absurd hab (by simp [leadsTo])
      | cons y ys =>
          cases c with
          | nil => exact absurd hbc (by simp [leadsTo])
          | cons z zs =>
              simp [leadsTo] at hab hbc ⊢
              exact ⟨hab.1.trans hbc.1, ih ys zs hab.2 hbc.2⟩

theorem leadsTo_length :
    ∀ (a b : List String), leadsTo a b = true → a.length ≤ b.length := by
  intro a
  induction a with
  | nil => intro b _; exact Nat.zero_le _
  | cons x xs ih =>
      intro b hab
      cases b with
      | nil => exact absurd hab (by simp [leadsTo])
      | cons y ys =>
          simp [leadsTo] at hab
          simpa [List.length_cons] using Nat.succ_le_succ (ih ys hab.2)

theorem leadsTo_eq_of_length :
    ∀ (a b : List String), leadsTo a b = true → a.length = b.length → a = b := by
  intro a
  induction a with
  | nil =>
      intro b _ hlen
      cases b with
      | nil => rfl
      | cons y ys => exact absurd hlen (by simp)
  | cons x xs ih =>
      intro b hab hlen
      cases b with
      | nil => exact absurd hab (by simp [leadsTo])
      | cons y ys =>
          simp [leadsTo] at hab
          simp [List.length_cons] at hlen
          rw [hab.1, ih ys hab.2 hlen]

/-- Strict path containment: `d` is a proper ancestor of `p`. -/
def properUnder (d p : List String) : Bool := leadsTo d p && decide (¬ d = p)

theorem properUnder_length (d p : List String) (h : properUnder d p = true) :
    d.length < p.length := by
  simp [properUnder] at h
  rcases Nat.lt_or_ge d.length p.length with hlt | hge
  · exact hlt
  · have hle := leadsTo_length d p h.1
    have hlen : d.length = p.length := Nat.le_antisymm hle hge
    exact absurd (leadsTo_eq_of_length d p h.1 hlen) h.2

theorem properUnder_trans (d e f : List String)
    (hde : properUnder d e = true) (hef : properUnder e f = true) :
    properUnder d f = true := by
  have hlt : d.length < f.length :=
    Nat.lt_trans (properUnder_length d e hde) (properUnder_length e f hef)
  simp [properUnder] at hde hef ⊢
  refine ⟨leadsTo_trans d e f hde.1 hef.1, ?_⟩
  intro hdf
  rw [hdf] at hlt
  exact Nat.lt_irrefl _ hlt

/-- The directory tree under the top directory: the set of directories
(other than the top directory itself, the empty path) and of files. -/
structure FS where
  dirs : List (List String)
  files : List (List String)
  deriving DecidableEq

/-- A directory is empty when nothing (directory or file) lies strictly
beneath it. -/
def dirIsEmpty (fs : FS) (d : List String) : Bool :=
  !(fs.dirs.any (fun p => properUnder d p)) && !(fs.files.any (fun p => properUnder d p))

/-- Some file lies strictly beneath `d`. -/
def hasFileUnder (fs : FS) (d : List String) : Bool :=
  fs.files.any (fun p => properUnder d p)

/-- One level of the bottom-up cleanup walk: remove the directories of
depth `n` that are empty.  Directories of equal depth cannot contain one
another, so the level can be removed as one batch. -/
def removeEmptyLevel (fs : FS) (n : Nat) : FS :=
  FS.mk (fs.dirs.filter (fun d => !(decide (d.length = n) && dirIsEmpty fs d))) fs.files

/-- Walk the levels from depth `n` down to depth 1, removing empty
directories at each level. -/
def sweepDown : Nat → FS → FS
  | 0, fs => fs
  | Nat.succ n, fs => sweepDown n (removeEmptyLevel fs (Nat.succ n))

/-- The maximal depth of any directory in the tree. -/
def maxDepth (fs : FS) : Nat :=
  fs.dirs.foldr (fun d m => max d.length m) 0

/-- Modelled from the spec: `remove_empty_dirs` of module `mir.dlsite.org`
is not under src; per the spec it removes directories left empty,
walking bottom-up so that emptied parents are also removed. -/
def removeEmptyDirs (fs : FS) : FS := sweepDown (maxDepth fs) fs

theorem sweepDown_files : ∀ (n : Nat) (fs : FS), (sweepDown n fs).files = fs.files := by
  intro n
  induction n with
  | zero => intro fs; rfl
  | succ n ih => intro fs; exact ih (removeEmptyLevel fs (Nat.succ n))

theorem foldr_max_bounds (d : List String) :
    ∀ (l : List (List String)), d ∈ l →
      d.length ≤ l.foldr (fun x m => max x.length m) 0 := by
  intro l
  induction l with
  | nil => intro h; cases h
  | cons x xs ih =>
      intro h
      rcases List.mem_cons.mp h with rfl | hx
      · exact Nat.le_max_left _ _
      · exact Nat.le_trans (ih hx) (Nat.le_max_right _ _)

theorem maxDepth_bounds (fs : FS) (d : List String) (h : d ∈ fs.dirs) :
    d.length ≤ maxDepth fs :=
  foldr_max_bounds d fs.dirs h

/-- The bottom-up invariant: every present directory deeper than `n` has
a file beneath it. -/
def cleanAbove (fs : FS) (n : Nat) : Prop :=
  ∀ d, d ∈ fs.dirs → n < d.length → hasFileUnder fs d = true

theorem removeEmptyLevel_step (fs : FS) (n : Nat) (h : cleanAbove fs (n + 1)) :
    cleanAbove (removeEmptyLevel fs (n + 1)) n := by
  intro d hd hlen
  have hmem := List.mem_filter.mp hd
  have hdirs : d ∈ fs.dirs := hmem.1
  have hfu : hasFileUnder (removeEmptyLevel fs (n + 1)) d = hasFileUnder fs d := rfl
  rw [hfu]
  rcases Nat.lt_or_ge (n + 1) d.length with hdeep | hshallow
  · exact h d hdirs hdeep
  · have hexact : d.length = n + 1 := Nat.le_antisymm hshallow hlen
    have hcond := hmem.2
    simp [hexact] at hcond
    have hnonempty : dirIsEmpty fs d = false := hcond
    cases hda : fs.dirs.any (fun p => properUnder d p) with
    | true =>
        simp [List.any_eq_true] at hda
        rcases hda with ⟨e, he, hpe⟩
        have hedeep : n + 1 < e.length := by
          have hdl := properUnder_length d e hpe
          omega
        have hef := h e he hedeep
        simp [hasFileUnder, List.any_eq_true] at hef ⊢
        rcases hef with ⟨f, hf, hpf⟩
        exact ⟨f, hf, properUnder_trans d e f hpe hpf⟩
    | false =>
        have hfa : fs.files.any (fun p => properUnder d p) = true := by
          unfold dirIsEmpty at hnonempty
          rw [hda] at hnonempty
          simpa using hnonempty
        exact hfa

theorem sweepDown_clean :
    ∀ (n : Nat) (fs : FS), cleanAbove fs n → cleanAbove (sweepDown n fs) 0 := by
  intro n
  induction n with
  | zero => intro fs h; exact h
  | succ n ih =>
      intro fs h
      exact ih (removeEmptyLevel fs (Nat.succ n)) (removeEmptyLevel_step fs n h)

/-- Every directory with no file beneath it is gone after the bottom-up
cleanup walk (an empty chain of directories collapses entirely). -/
theorem removeEmptyDirs_complete (fs : FS) (d : List String) (hne : d ≠ [])
    (hnofile : hasFileUnder fs d = false) : d ∉ (removeEmptyDirs fs).dirs := by
  intro hd
  have hstart : cleanAbove fs (maxDepth fs) := by
    intro e he hlen
    exact absurd (maxDepth_bounds fs e he) (Nat.not_le_of_lt hlen)
  have hclean := sweepDown_clean (maxDepth fs) fs hstart
  have hlen : 0 < d.length := List.length_pos.mpr hne
  have hfu := hclean d hd hlen
  have hfiles : (sweepDown (maxDepth fs) fs).files = fs.files := sweepDown_files _ fs
  have : hasFileUnder (sweepDown (maxDepth fs) fs) d = hasFileUnder fs d := by
    unfold hasFileUnder
    rw [hfiles]
  rw [this, hnofile] at hfu
  exact Bool.noConfusion hfu

/-! The dlorg command (cmd/dlorg.py) and claims C5, C6 and C8. -/

/-- A planned rename entry (source and destination, relative to the top
directory), as produced by `org.calculate_path_renames`. -/
structure Rename where
  source : List String
  destination : List String
  deriving DecidableEq

/-- The works filter of dlorg.main (lines 37-38): without `--all`, keep
only paths with a single component (immediate children of the root). -/
def selectWorks (allFlag : Bool) (works : List (List String)) : List (List String) :=
  if allFlag = false then works.filter (fun p => p.length == 1) else works

/-- Modelled from the spec: `Rename.execute` of module `mir.dlsite.org`
is not under src; per the spec a rename failure is reported for that
entry and the batch continues, so each entry's execution is a total step
`execEntry` yielding the new tree and an optional per-entry error.  This
is the rename loop of dlorg.main (lines 44-45), returning the final tree
and the per-entry report log in plan order. -/
def runPlan (execEntry : FS → Rename → FS × Option String) :
    FS → List Rename → FS × List (Rename × Option String)
  | fs, [] => (fs, [])
  | fs, e :: rest =>
      let step := execEntry fs e
      let restRun := runPlan execEntry step.1 rest
      (restRun.1, (e, step.2) :: restRun.2)

/-- dlorg.main after argument parsing (lines 36-46), with the discovered
works, the planner and the per-entry executor as collaborators.  Returns
the final tree, the lines printed, and the per-entry report log.  The
dry-run branch of the source is a bare Ellipsis expression: it prints
nothing and touches nothing. -/
def dlorgMain (calcRenames : List (List String) → List Rename)
    (execEntry : FS → Rename → FS × Option String)
    (works : List (List String)) (allFlag dryRun : Bool) (fs : FS) :
    FS × List String × List (Rename × Option String) :=
  let ws := selectWorks allFlag works
  let renames := calcRenames ws
  if dryRun then
    (fs, [], [])
  else
    let res := runPlan execEntry fs renames
    (removeEmptyDirs res.1, [], res.2)

/-- Helper: the rename loop attempts every entry of the plan, in order,
whatever the per-entry outcomes are. -/
theorem runPlan_attempts_all (execEntry : FS → Rename → FS × Option String) :
    ∀ (entries : List Rename) (fs : FS),
      (runPlan execEntry fs entries).2.map Prod.fst = entries := by
  intro entries
  induction entries with
  | nil => intro fs; rfl
  | cons e rest ih =>
      intro fs
      simp only [runPlan, List.map_cons]
      rw [ih]

/-- C5: in a non-dry run, every plan entry is attempted and paired with
its own outcome in the report (a failing entry does not abort the
remaining ones), and after the whole batch the cleanup pass runs on the
resulting tree, removing the directories left without any file beneath
them. -/
theorem execute_best_effort (calcRenames : List (List String) → List Rename)
    (execEntry : FS → Rename → FS × Option String)
    (works : List (List String)) (allFlag : Bool) (fs : FS) :
    (runPlan execEntry fs (calcRenames (selectWorks allFlag works))).2.map Prod.fst =
      calcRenames (selectWorks allFlag works) ∧
    dlorgMain calcRenames execEntry works allFlag false fs =
      (removeEmptyDirs (runPlan execEntry fs (calcRenames (selectWorks allFlag works))).1,
        [], (runPlan execEntry fs (calcRenames (selectWorks allFlag works))).2) ∧
    (∀ d, d ≠ [] →
      hasFileUnder (runPlan execEntry fs (calcRenames (selectWorks allFlag works))).1 d = false →
      d ∉ (removeEmptyDirs
        (runPlan execEntry fs (calcRenames (selectWorks allFlag works))).1).dirs) := by
  refine ⟨runPlan_attempts_all execEntry _ fs, rfl, ?_⟩
  intro d hne hnofile
  exact removeEmptyDirs_complete _ d hne hnofile

/-- Witness for C5: an empty plan over a tree holding a single fileless
directory; the cleanup pass removes it. -/
theorem execute_best_effort_witness :
    ["a"] ∉ (removeEmptyDirs
      (runPlan (fun (t : FS) (_ : Rename) => (t, (none : Option String)))
        (FS.mk [["a"]] [])
        ((fun _ => []) (selectWorks false []))).1).dirs :=
  (execute_best_effort (fun _ => []) (fun t _ => (t, none)) [] false
    (FS.mk [["a"]] [])).2.2 ["a"] (by decide) rfl

/-- C6: with `--dry-run` the command mutates nothing — but it also
prints nothing: the dry-run branch of dlorg.main (line 42) is a bare
Ellipsis placeholder, so the intended renames and the failed items are
never displayed. -/
theorem dry_run_prints_nothing (calcRenames : List (List String) → List Rename)
    (execEntry : FS → Rename → FS × Option String)
    (works : List (List String)) (allFlag : Bool) (fs : FS) :
    dlorgMain calcRenames execEntry works allFlag true fs = (fs, [], []) := rfl

/-- C8: without `--all` the processed works are exactly the discovered
folders whose relative path has one component; with `--all` every
discovered folder is processed. -/
theorem select_works_depth (works : List (List String)) :
    (∀ p, p ∈ selectWorks false works ↔ p ∈ works ∧ p.length = 1) ∧
    selectWorks true works = works := by
  constructor
  · intro p
    simp [selectWorks, List.mem_filter]
  · rfl

/-! Claim C9: get_fetcher and the well-known per-user cache path. -/

/-- All ancestor-or-self paths of a path, shortest first. -/
def initsOf : List String → List (List String)
  | [] => [[]]
  | a :: as => [] :: (initsOf as).map (fun p => a :: p)

theorem mem_initsOf : ∀ (d p : List String), p ∈ initsOf d ↔ leadsTo p d = true := by
  intro d
  induction d with
  | nil =>
      intro p
      cases p with
      | nil => simp [initsOf, leadsTo]
      | cons b bs => simp [initsOf, leadsTo]
  | cons a as ih =>
      intro p
      cases p with
      | nil => simp [initsOf, leadsTo]
      | cons b bs =>
          simp [initsOf, leadsTo]
          constructor
          · intro hmem
            exact ⟨hmem.2.symm, (ih bs).mp hmem.1⟩
          · intro hlt
            exact ⟨(ih bs).mpr hlt.2, hlt.1.symm⟩

/-- The fixed per-user cache location from api.py line 126:
`Path.home() / \x22.cache\x22 / \x22mir.dlsite.db\x22`. -/
def cachePath (home : List String) : List String :=
  home ++ [".cache", "mir.dlsite.db"]

/-- `path.parent`. -/
def parentDir (p : List String) : List String := p.dropLast

/-- `path.parent.mkdir(parents=True, exist_ok=True)` (api.py line 132):
create the directory and every missing ancestor; an existing directory is
not an error and nothing is removed. -/
def mkdirParents (fs : FS) (d : List String) : FS :=
  FS.mk (fs.dirs ++ (initsOf d).filter (fun p => decide (p ≠ [] ∧ p ∉ fs.dirs)))
    fs.files

/-- The `CachedFetcher` object: the store path given to the constructor
and the shelf handle, which `__init__` (api.py lines 100-103) leaves
unopened. -/
structure CachedFetcherState where
  path : List String
  shelf : ShelfState

/-- `get_fetcher` (api.py lines 129-133): create the cache directory on
demand and construct the `CachedFetcher` on the fixed path with the real
fetcher. -/
def get_fetcher (home : List String) (fs : FS) : FS × CachedFetcherState :=
  (mkdirParents fs (parentDir (cachePath home)),
    CachedFetcherState.mk (cachePath home) ShelfState.unopened)

theorem parentDir_cachePath (home : List String) :
    parentDir (cachePath home) = home ++ [".cache"] := by
  unfold parentDir cachePath
  have h : home ++ [".cache", "mir.dlsite.db"] =
      (home ++ [".cache"]) ++ ["mir.dlsite.db"] := by
    simp
  rw [h, List.dropLast_concat]

/-- C9: the fetcher returned by `get_fetcher` targets the fixed path
`home/.cache/mir.dlsite.db` — identical across runs whatever the tree
looks like — with its store not yet opened; the parent cache directory
and all its ancestors exist afterwards, nothing is deleted, files are
untouched, and when the directories already exist the tree is unchanged. -/
theorem get_fetcher_fixed_path (home : List String) (fs : FS) :
    (get_fetcher home fs).2.path = home ++ [".cache", "mir.dlsite.db"] ∧
    (∀ fs2 : FS, (get_fetcher home fs2).2.path = (get_fetcher home fs).2.path) ∧
    (get_fetcher home fs).2.shelf = ShelfState.unopened ∧
    parentDir (cachePath home) ∈ (get_fetcher home fs).1.dirs ∧
    (∀ p, leadsTo p (parentDir (cachePath home)) = true → p ≠ [] →
      p ∈ (get_fetcher home fs).1.dirs) ∧
    (∀ d, d ∈ fs.dirs → d ∈ (get_fetcher home fs).1.dirs) ∧
    (get_fetcher home fs).1.files = fs.files ∧
    ((∀ p, p ∈ initsOf (parentDir (cachePath home)) → p ≠ [] → p ∈ fs.dirs) →
      (get_fetcher home fs).1 = fs) := by
  have hparent : parentDir (cachePath home) = home ++ [".cache"] :=
    parentDir_cachePath home
  have hancestors : ∀ p, leadsTo p (parentDir (cachePath home)) = true → p ≠ [] →
      p ∈ (get_fetcher home fs).1.dirs := by
    intro p hp hne
    have hmem : p ∈ initsOf (parentDir (cachePath home)) :=
      (mem_initsOf (parentDir (cachePath home)) p).mpr hp
    show p ∈ (mkdirParents fs (parentDir (cachePath home))).dirs
    unfold mkdirParents
    by_cases hin : p ∈ fs.dirs
    · exact List.mem_append_left _ hin
    · refine List.mem_append_right _ (List.mem_filter.mpr ⟨hmem, ?_⟩)
      simp [hne, hin]
  refine ⟨rfl, fun fs2 => rfl, rfl, ?_, hancestors, ?_, rfl, ?_⟩
  · refine hancestors (parentDir (cachePath home)) (leadsTo_refl _) ?_
    rw [hparent]
    simp
  · intro d hd
    exact List.mem_append_left _ hd
  · intro hall
    show mkdirParents fs (parentDir (cachePath home)) = fs
    unfold mkdirParents
    have hnil : (initsOf (parentDir (cachePath home))).filter
        (fun p => decide (p ≠ [] ∧ p ∉ fs.dirs)) = [] := by
      rw [List.filter_eq_nil_iff]
      intro p hp
      simp only [decide_eq_true_eq, not_and, not_not]
      intro hne
      exact hall p hp hne
    rw [hnil, List.append_nil]

/-- Witness for C9: a tree that already holds the cache directories is
returned unchanged. -/
theorem get_fetcher_fixed_path_witness :
    (get_fetcher ["home"] (FS.mk [["home"], ["home", ".cache"]] [])).1 =
      FS.mk [["home"], ["home", ".cache"]] [] :=
  (get_fetcher_fixed_path ["home"]
    (FS.mk [["home"], ["home", ".cache"]] [])).2.2.2.2.2.2.2 (by decide)
